import Mathlib

/-!
Verification of the aggregation core of the `ai-news-agent` repository
(`news_fetcher.py`, `dynamic_sources.py`) against its natural-language
specification.

Shallow embedding conventions:
* timestamps are rationals measured in hours since an arbitrary epoch;
  `datetime.now()` becomes an explicit `now : ℚ` parameter, and
  `(now - t).total_seconds() / 3600` becomes `now - t`;
* Python floats are modelled as exact rationals (the constants involved,
  `2.4`, `0.6`, `0.4`, `1.5`, are exactly representable);
* Python dicts for articles become a fixed structure; a key read with
  `.get(k, default)` whose absence is indistinguishable from the default
  (e.g. `points`, absent ≡ `0`) is modelled by the default value, and a key
  whose absence matters (`published` failing `fromisoformat`,
  `source_weight` never attached) is modelled by `Option`;
* network and filesystem effects are passed in explicitly: fetch results
  as oracle arguments, the cache as a function `String → Option CacheEntry`;
* `try/except` blocks that swallow every exception and fall back to a
  value are modelled by total functions returning that fallback.
-/

attribute [local semireducible] Rat.add Rat.sub Rat.mul Rat.inv Rat.ofScientific

namespace NewsAgent

/-! ## String helpers (Python `str.lower`, `str.strip`, `in`, `re.sub`) -/

/-- Python `str.lower()` (ASCII-faithful; test inputs are ASCII). -/
def pyLower (s : String) : String :=
  ⟨s.data.map Char.toLower⟩

/-- Python `str.strip()`: drop leading and trailing whitespace. -/
def pyStrip (s : String) : String :=
  ⟨((s.data.dropWhile Char.isWhitespace).reverse.dropWhile Char.isWhitespace).reverse⟩

/-- Membership of `needle` as a contiguous (infix) run of `hay`,
modelling Python `needle in hay` on strings. -/
def listContains (needle : List Char) : List Char → Bool
  | [] => decide (needle = [])
  | c :: rest => needle.isPrefixOf (c :: rest) || listContains needle rest

/-- Python `needle in hay` for strings. -/
def containsSub (needle hay : String) : Bool :=
  listContains needle.data hay.data

/-- A regex word character: `re.sub(r'[^\w\s]', '', s)` keeps word chars
and whitespace; `\w` is alphanumerics plus underscore. -/
def isWordChar (c : Char) : Bool :=
  c.isAlphanum || c = '_'

/-- `re.sub(r'[^\w\s]', '', s)`: remove every char that is neither a word
char nor whitespace. -/
def stripPunct (s : String) : String :=
  ⟨s.data.filter (fun c => isWordChar c || c.isWhitespace)⟩

/-- Python string slicing `s[:n]`: the first `n` code points. -/
def pyTake (n : ℕ) (s : String) : String :=
  ⟨s.data.take n⟩

/-- `urlparse(url).netloc` for `scheme://host/path`-shaped URLs: the text
after the first `//` up to the next `/`. -/
def dropToAuthority : List Char → List Char
  | [] => []
  | '/' :: '/' :: rest => rest
  | _ :: rest => dropToAuthority rest

def netloc (url : String) : String :=
  ⟨(dropToAuthority url.data).takeWhile (fun c => c ≠ '/')⟩

/-! ## Data model -/

/-- One article dict as produced by the fetch strategies in
`news_fetcher.py`.  `published` is `none` when the stored string would fail
`datetime.fromisoformat` (the strategies themselves always store a valid
timestamp).  `points` / `score` default to `0` exactly as
`article.get('points', 0)` / `article.get('score', 0)` do.  `source_weight`
is `none` until `fetch_recent_articles` attaches it. -/
structure Article where
  title : String
  link : String
  published : Option ℚ
  summary : String
  source : String
  source_type : String
  points : ℤ := 0
  score : ℤ := 0
  source_weight : Option ℚ := none
deriving DecidableEq, Repr

/-- One entry of a source-config dict from `sources_config.py` /
`dynamic_sources.get_top_sources` (every config built by the repository
carries these keys). -/
structure SourceConfig where
  url : String
  type_ : String
  weight : ℚ
  category : String
deriving DecidableEq, Repr

/-! ## `deduplicate_articles` (news_fetcher.py lines 454-472) -/

/-- `article.get('link', '').strip().lower()`. -/
def urlKey (a : Article) : String :=
  pyLower (pyStrip a.link)

/-- `re.sub(r'[^\w\s]', '', article.get('title', '').strip().lower())`. -/
def titleKey (a : Article) : String :=
  stripPunct (pyLower (pyStrip a.title))

/-- The loop of `deduplicate_articles` with its two `seen` sets made
explicit. An article is kept iff its URL key is unseen AND its normalized
title key is unseen; both keys are then recorded. -/
def dedupAux : List Article → List String → List String → List Article
  | [], _, _ => []
  | a :: rest, seenUrls, seenTitles =>
    if urlKey a ∉ seenUrls ∧ titleKey a ∉ seenTitles then
      a :: dedupAux rest (urlKey a :: seenUrls) (titleKey a :: seenTitles)
    else
      dedupAux rest seenUrls seenTitles

def deduplicate_articles (articles : List Article) : List Article :=
  dedupAux articles [] []

/-! ## `filter_articles` (news_fetcher.py lines 475-497) -/

/-- `[k.strip().lower() for k in exclude_keywords if k.strip()]`. -/
def cleanKeywords (raw : List String) : List String :=
  (raw.filter (fun k => pyStrip k ≠ "")).map (fun k => pyLower (pyStrip k))

/-- The per-article predicate of `filter_articles`: keep iff the
(lower-cased) title has at least 15 characters and no exclude keyword
occurs in `title ++ " " ++ summary`.  (The `min_article_length` config
value is read into a local variable by the source but never used; the
length check is against the literal `15`.) -/
def keepArticle (excl : List String) (a : Article) : Bool :=
  let title := pyLower a.title
  let summary := pyLower a.summary
  let content := title ++ " " ++ summary
  decide (15 ≤ title.length) && !(excl.any (fun k => containsSub k content))

def filter_articles (rawExcl : List String) (articles : List Article) : List Article :=
  articles.filter (keepArticle (cleanKeywords rawExcl))

/-! ## `calculate_score` / `sort_articles_by_relevance`
(news_fetcher.py lines 500-530) -/

/-- The relevance score computed inside `sort_articles_by_relevance`.
`2.4` is the exact rational `12/5`; a `published` value that
`datetime.fromisoformat` would reject contributes the default `5`. -/
def calculate_score (now : ℚ) (a : Article) : ℚ :=
  let recency : ℚ :=
    match a.published with
    | some t => max 0 (10 - (now - t) / (12/5))
    | none => 5
  let weight : ℚ := a.source_weight.getD 5
  let pts : ℤ := if a.points ≠ 0 then a.points else a.score
  let engagement : ℚ := if 0 < pts then min 5 ((pts : ℚ) / 100) else 0
  let bonus : ℚ := if a.source_type = "arxiv_api" ∨ a.source_type = "academic" then 2 else 0
  recency + weight + engagement + bonus

/-- The ordering used by `sorted(articles, key=calculate_score, reverse=True)`:
`a` may come before `b` iff `score a ≥ score b`. -/
def scoreGE (now : ℚ) (a b : Article) : Prop :=
  calculate_score now b ≤ calculate_score now a

instance (now : ℚ) : DecidableRel (scoreGE now) :=
  fun a b => inferInstanceAs (Decidable (calculate_score now b ≤ calculate_score now a))

/-- Python `sorted` is a stable sort; a stable sort by a key is unique as a
function, so the stable `List.insertionSort` under `scoreGE` (which places
an earlier element before a later one of equal score) is the exact model of
`sorted(articles, key=calculate_score, reverse=True)`. -/
def sort_articles_by_relevance (now : ℚ) (articles : List Article) : List Article :=
  List.insertionSort (scoreGE now) articles

/-! ## `fetch_recent_articles` (news_fetcher.py lines 533-587) -/

/-- The `all_articles` list of `fetch_recent_articles` after the two fetch
loops (lines 546-569): per-source results with the source's `weight`
attached to each article, followed by the real-time search results when
real-time search is enabled.  Network effects are passed as the oracle
`fetchResult` (the value `fetch_from_source` returns for each configured
source, never raising) and as `realtime` (the value of
`fetch_realtime_search_results()`). -/
def merged_articles (sources : List (String × SourceConfig))
    (fetchResult : String → SourceConfig → List Article)
    (realtimeEnabled : Bool) (realtime : List Article) : List Article :=
  (sources.flatMap (fun p =>
      (fetchResult p.1 p.2).map (fun a => { a with source_weight := some p.2.weight })))
    ++ (if realtimeEnabled then realtime else [])

/-- The merge-and-process pipeline of `fetch_recent_articles`: merge,
deduplicate, filter, sort by relevance, truncate to `max_articles`,
exactly as lines 546-587 do. -/
def fetch_recent_articles (now : ℚ) (rawExcl : List String)
    (sources : List (String × SourceConfig))
    (fetchResult : String → SourceConfig → List Article)
    (realtimeEnabled : Bool) (realtime : List Article)
    (max_articles : ℕ) : List Article :=
  ((sort_articles_by_relevance now
      (filter_articles rawExcl (deduplicate_articles
        (merged_articles sources fetchResult realtimeEnabled realtime)))).take max_articles)

/-! ## `parse_rss_feed` (news_fetcher.py lines 96-133) -/

/-- One feedparser entry, with the keys `parse_rss_feed` reads.
`published` is `none` when neither `published_parsed` nor `updated_parsed`
is available. -/
structure RssEntry where
  title : String
  link : String
  published : Option ℚ
  summary : String
deriving DecidableEq, Repr

/-- The loop body of `parse_rss_feed`: take the first
`max_articles_per_source` entries, default a missing timestamp to `now`,
skip entries older than the lookback window (`hours_ago > lookback`), and
keep only entries with nonempty stripped title and link. `source_name` is
the already-resolved source label (`source_name or urlparse(url).netloc`). -/
def parse_rss_feed (now lookback : ℚ) (maxPerSource : ℕ)
    (source_name : String) (entries : List RssEntry) : List Article :=
  (entries.take maxPerSource).filterMap (fun e =>
    let pub_date := e.published.getD now
    let hours_ago := now - pub_date
    if lookback < hours_ago then none
    else
      let a : Article :=
        { title := pyStrip e.title
          link := pyStrip e.link
          published := some pub_date
          summary := pyTake 500 (pyStrip e.summary)
          source := source_name
          source_type := "rss" }
      if a.title ≠ "" ∧ a.link ≠ "" then some a else none)

/-! ## `fetch_arxiv_api` (news_fetcher.py lines 136-176) -/

/-- One Atom entry of the arXiv API response; `title`/`idLink`/`summary`
are `none` when the element is absent, `published` is `none` when the
element is absent or its text fails `fromisoformat`. -/
structure ArxivEntry where
  title : Option String
  idLink : Option String
  published : Option ℚ
  summary : Option String
deriving DecidableEq, Repr

/-- The loop of `fetch_arxiv_api`: first 20 entries, entries lacking title
or id skipped, a missing/unparseable timestamp defaulted to `now`.
Note: unlike `parse_rss_feed`, there is NO lookback-window check here. -/
def fetch_arxiv_api (now : ℚ) (entries : List ArxivEntry) : List Article :=
  (entries.take 20).filterMap (fun e =>
    match e.title, e.idLink with
    | some t, some l =>
      some { title := pyStrip t
             link := pyStrip l
             published := some (e.published.getD now)
             summary := match e.summary with
                        | some s => pyTake 500 (pyStrip s)
                        | none => ""
             source := "arXiv"
             source_type := "arxiv_api" }
    | _, _ => none)

/-! ## Cache Store (news_fetcher.py lines 51-93) -/

/-- The JSON payload of one cache file:
`{"timestamp": ..., "articles": [...]}`. -/
structure CacheEntry where
  timestamp : ℚ
  articles : List Article
deriving DecidableEq, Repr

/-- The cache directory as a map from cache key to file content. -/
def CacheStore := String → Option CacheEntry

/-- `load_from_cache`: miss when caching is disabled, the file is absent,
or `now - cached_time < ttl` fails (times in hours, `ttl` in hours to match;
the source compares `datetime.now() - cached_time < timedelta(seconds=ttl)`,
a strict inequality). -/
def load_from_cache (enabled : Bool) (store : CacheStore)
    (cache_key : String) (now ttl : ℚ) : Option (List Article) :=
  if enabled then
    match store cache_key with
    | none => none
    | some data => if now - data.timestamp < ttl then some data.articles else none
  else none

/-- `save_to_cache`: overwrite the entry for `cache_key` with the articles
and the current timestamp; a no-op when caching is disabled. -/
def save_to_cache (enabled : Bool) (store : CacheStore)
    (cache_key : String) (now : ℚ) (articles : List Article) : CacheStore :=
  if enabled then
    fun k => if k = cache_key then some ⟨now, articles⟩ else store k
  else store

/-! ## `fetch_from_source` (news_fetcher.py lines 399-431) -/

/-- `get_cache_key(f"{source_name}_{url}")` is an md5 hex digest; the
embedding keeps the pre-image string, which the digest is injective on for
the repository's few dozen distinct sources. -/
def get_cache_key (source_id : String) : String := source_id

/-- `fetch_from_source` with the strategy dispatch abstracted: `impl` is
the article list the type-matched strategy returns (each strategy is total,
returning `[]` on failure).  Python's `if cached:` is true only for a
non-`None`, NON-EMPTY list, and `if articles:` writes the cache only for a
non-empty fetch result.  Returns the articles and the updated store. -/
def fetch_from_source (enabled : Bool) (store : CacheStore) (now ttl : ℚ)
    (source_name : String) (source_config : SourceConfig)
    (impl : List Article) : List Article × CacheStore :=
  let cache_key := get_cache_key (source_name ++ "_" ++ source_config.url)
  let freshly :=
    (impl, if impl ≠ [] then save_to_cache enabled store cache_key now impl else store)
  match load_from_cache enabled store cache_key now ttl with
  | some cached => if cached ≠ [] then (cached, store) else freshly
  | none => freshly

/-! ## `search_duckduckgo` (news_fetcher.py lines 316-396) -/

/-- Outcome of one attempt of the `while attempt <= retries` loop body:
a successful result list, an exception matching one of the rate-limit
message patterns, or any other exception. -/
inductive AttemptOutcome where
  | ok (articles : List Article)
  | rateLimited
  | failed
deriving DecidableEq, Repr

/-- Python `round(q, 2)` (to-nearest, modelled half-up; the development
only relies on the rounded value being within `1/200` of the argument, so
the half-even tie rule of CPython cannot change any statement proved
here). -/
def round2 (q : ℚ) : ℚ := (round (q * 100) : ℤ) / 100

/-- The retry loop of `search_duckduckgo`.  `attempt` is the 1-based
number of the attempt now being made and `remaining` the number of further
attempts the `while attempt <= retries` guard still allows
(`remaining = retries + 1 - attempt`); a rate-limit error with
`attempt ≤ retries` (i.e. `remaining > 0`) sleeps
`round(backoff_base ** (attempt - 1), 2)` seconds and retries, any other
error — and a rate-limit error on the last allowed attempt — abandons the
loop and returns the articles collected so far (`[]`).  The returned pair
is (result, the list of sleep delays in order). -/
def ddgLoop (outcomes : ℕ → AttemptOutcome) (base : ℚ) :
    (attempt remaining : ℕ) → List Article × List ℚ
  | attempt, 0 =>
    match outcomes attempt with
    | .ok articles => (articles, [])
    | _ => ([], [])
  | attempt, remaining + 1 =>
    match outcomes attempt with
    | .ok articles => (articles, [])
    | .rateLimited =>
      let rest := ddgLoop outcomes base (attempt + 1) remaining
      (rest.1, round2 (base ^ (attempt - 1)) :: rest.2)
    | .failed => ([], [])

/-- `search_duckduckgo` for an available search backend: attempts start at
1 and at most `retries` further attempts (hence sleeps) follow. -/
def search_duckduckgo (outcomes : ℕ → AttemptOutcome)
    (retries : ℕ) (base : ℚ) : List Article × List ℚ :=
  ddgLoop outcomes base 1 retries

/-! ## `validate_rss_feed` (dynamic_sources.py lines 80-140) -/

/-- The 18 entries of `AI_KEYWORDS` (a Python set; only the
order-independent count of matches is used). -/
def aiKeywords : List String :=
  ["artificial intelligence", "machine learning", "deep learning", "neural network",
   "llm", "gpt", "transformer", "ai model", "generative ai", "chatgpt",
   "computer vision", "nlp", "natural language", "reinforcement learning",
   "ai research", "ai development", "ai application", "ai ethics"]

/-- `' '.join(parts)`. -/
def joinSp : List String → String
  | [] => ""
  | h :: t => t.foldl (fun acc s => acc ++ " " ++ s) h

/-- The scores `validate_rss_feed` returns for an accepted feed. -/
structure FeedValidation where
  quality_score : ℚ
  freshness_score : ℚ
  ai_relevance : ℚ
deriving DecidableEq, Repr

/-- The freshness score of `validate_rss_feed`: the age in whole days
(`timedelta.days` floors, hence `Int.floor` of the hour-age over 24) of the
newest entry, linearly decayed over 30 days and clamped below at 0;
`0.5` when the newest entry has no usable timestamp. -/
def freshnessOf (now : ℚ) (pub? : Option ℚ) : ℚ :=
  match pub? with
  | some pub => max 0 (1 - ((⌊(now - pub) / 24⌋ : ℤ) : ℚ) / 30)
  | none => 1/2

/-- The AI-relevance score of `validate_rss_feed`: the number of
`AI_KEYWORDS` occurring in the lower-cased feed title, feed description and
first five entry titles joined by spaces, divided by 5 and capped at 1. -/
def aiRelevanceOf (ft fd : String) (entries : List RssEntry) : ℚ :=
  min 1 (((aiKeywords.filter (fun k => containsSub k
      (joinSp [pyLower ft, pyLower fd,
        joinSp ((entries.take 5).map (fun e => pyLower e.title))]))).length : ℚ) / 5)

/-- `validate_rss_feed`: reject on non-200 status or an empty entry list;
compute freshness and AI relevance as above; reject when the combined
quality score is below `min_score` (`MIN_SOURCE_SCORE`, default `0.6`). -/
def validate_rss_feed (now min_score : ℚ) (status_code : ℕ)
    (feedTitle feedDesc : String) (entries : List RssEntry) : Option FeedValidation :=
  if status_code ≠ 200 then none
  else
    match entries with
    | [] => none
    | latest :: _ =>
      let freshness_score := freshnessOf now latest.published
      let ai_relevance := aiRelevanceOf feedTitle feedDesc entries
      let quality_score := freshness_score * (6/10) + ai_relevance * (4/10)
      if quality_score < min_score then none
      else some ⟨quality_score, freshness_score, ai_relevance⟩

/-! ## Helper lemmas -/

theorem dedupAux_sublist : ∀ (arts : List Article) (su st : List String),
    List.Sublist (dedupAux arts su st) arts := by
  intro arts
  induction arts with
  | nil => intro su st; exact List.Sublist.refl _
  | cons a rest ih =>
    intro su st
    unfold dedupAux
    by_cases h : urlKey a ∉ su ∧ titleKey a ∉ st
    · rw [if_pos h]; exact (ih _ _).cons₂ a
    · rw [if_neg h]; exact (ih _ _).cons a

theorem mem_dedupAux : ∀ {arts : List Article} {su st : List String} {a : Article},
    a ∈ dedupAux arts su st → urlKey a ∉ su ∧ titleKey a ∉ st := by
  intro arts
  induction arts with
  | nil => intro su st a h; simp [dedupAux] at h
  | cons b rest ih =>
    intro su st a h
    unfold dedupAux at h
    by_cases hb : urlKey b ∉ su ∧ titleKey b ∉ st
    · rw [if_pos hb] at h
      rcases List.mem_cons.mp h with rfl | h2
      · exact hb
      · have h3 := ih h2
        exact ⟨fun hm => h3.1 (List.mem_cons_of_mem _ hm),
               fun hm => h3.2 (List.mem_cons_of_mem _ hm)⟩
    · rw [if_neg hb] at h; exact ih h

theorem dedupAux_pairwise_urlKey : ∀ (arts : List Article) (su st : List String),
    (dedupAux arts su st).Pairwise (fun a b => urlKey a ≠ urlKey b) := by
  intro arts
  induction arts with
  | nil => intro su st; simp [dedupAux]
  | cons b rest ih =>
    intro su st
    unfold dedupAux
    by_cases hb : urlKey b ∉ su ∧ titleKey b ∉ st
    · rw [if_pos hb]
      refine List.pairwise_cons.mpr ⟨?_, ih _ _⟩
      intro a ha hcontra
      exact (mem_dedupAux ha).1 (by simp [← hcontra])
    · rw [if_neg hb]; exact ih _ _

theorem dedupAux_pairwise_titleKey : ∀ (arts : List Article) (su st : List String),
    (dedupAux arts su st).Pairwise (fun a b => titleKey a ≠ titleKey b) := by
  intro arts
  induction arts with
  | nil => intro su st; simp [dedupAux]
  | cons b rest ih =>
    intro su st
    unfold dedupAux
    by_cases hb : urlKey b ∉ su ∧ titleKey b ∉ st
    · rw [if_pos hb]
      refine List.pairwise_cons.mpr ⟨?_, ih _ _⟩
      intro a ha hcontra
      exact (mem_dedupAux ha).2 (by simp [← hcontra])
    · rw [if_neg hb]; exact ih _ _

theorem flatMap_eq_nil_of_forall {l : List (String × SourceConfig)}
    {fetchResult : String → SourceConfig → List Article}
    (hl : ∀ p ∈ l, fetchResult p.1 p.2 = []) :
    l.flatMap (fun p =>
      (fetchResult p.1 p.2).map (fun a => { a with source_weight := some p.2.weight })) = [] := by
  induction l with
  | nil => rfl
  | cons p t ih =>
    have hp : fetchResult p.1 p.2 = [] := hl p (by simp)
    have ht := ih (fun q hq => hl q (by simp [hq]))
    simp [hp, ht]

/-! ## Claim theorems -/

/-- C1: `fetch_recent_articles` is a total function of its inputs (every
fetch effect is wrapped in exception-swallowing handlers, modelled here by
the total oracles), and when every per-source fetch and the real-time
search contribute zero articles, it returns the empty list — an empty
result, not an error. -/
theorem C1_total_failure_returns_empty
    (now : ℚ) (rawExcl : List String) (sources : List (String × SourceConfig))
    (fetchResult : String → SourceConfig → List Article)
    (realtimeEnabled : Bool) (realtime : List Article) (max_articles : ℕ)
    (hsrc : ∀ p ∈ sources, fetchResult p.1 p.2 = [])
    (hrt : realtime = []) :
    fetch_recent_articles now rawExcl sources fetchResult realtimeEnabled
      realtime max_articles = [] := by
  subst hrt
  have hmerge : merged_articles sources fetchResult realtimeEnabled [] = [] := by
    unfold merged_articles
    rw [flatMap_eq_nil_of_forall hsrc]
    cases realtimeEnabled <;> rfl
  unfold fetch_recent_articles
  rw [hmerge]
  simp [filter_articles, deduplicate_articles, dedupAux, sort_articles_by_relevance,
    List.insertionSort]

/-- C1 witness: two configured sources that both fail plus a failed
real-time search yield the empty list. -/
theorem C1_witness :
    fetch_recent_articles 0 []
      [("arxiv", ⟨"http://export.arxiv.org/api/query", "arxiv_api", 10, "academic"⟩),
       ("hacker_news", ⟨"https://hn.algolia.com/api/v1/search", "hn_api", 7, "community"⟩)]
      (fun _ _ => []) true [] 100 = [] :=
  C1_total_failure_returns_empty 0 [] _ _ true [] 100 (fun _ _ => rfl) rfl

/-- C2 counterexample: two articles with distinct, non-empty URLs but the
same title; `deduplicate_articles` drops the second although its URL is
new, refuting "title-based dropping applies only to articles lacking a
URL". -/
def c2First : Article :=
  { title := "Same Great Story About AI", link := "https://a.com/x",
    published := some 0, summary := "", source := "s1", source_type := "rss" }

def c2Second : Article :=
  { title := "Same Great Story About AI", link := "https://b.com/y",
    published := some 0, summary := "", source := "s2", source_type := "rss" }

/-- C2 counterexample: the second article has a non-empty URL distinct
from every earlier article's URL, yet it is not retained. -/
theorem C2_counterexample :
    c2Second.link ≠ "" ∧ urlKey c2Second ≠ urlKey c2First ∧
      c2Second ∉ deduplicate_articles [c2First, c2Second] := by
  decide

/-- C2 (amended): `deduplicate_articles` enforces URL uniqueness and
normalized-title uniqueness over ALL output articles — an article is kept
only when both its canonical URL and its normalized title are new, so
title-based dropping applies to URL-bearing articles too; the output is a
sublist (subsequence) of the input. -/
theorem C2_two_stage_uniqueness (articles : List Article) :
    (deduplicate_articles articles).Pairwise (fun a b => urlKey a ≠ urlKey b)
    ∧ (deduplicate_articles articles).Pairwise (fun a b => titleKey a ≠ titleKey b)
    ∧ List.Sublist (deduplicate_articles articles) articles :=
  ⟨dedupAux_pairwise_urlKey articles [] [], dedupAux_pairwise_titleKey articles [] [],
   dedupAux_sublist articles [] []⟩

/-- C7: with caching enabled, a read within the TTL of a write returns
exactly the written article list, and a read at or after the TTL is a
miss (`None`), never stale data. -/
theorem C7_cache_roundtrip_and_expiry
    (store : CacheStore) (K : String) (A : List Article) (twrite tread ttl : ℚ) :
    (tread - twrite < ttl →
      load_from_cache true (save_to_cache true store K twrite A) K tread ttl = some A)
    ∧ (ttl ≤ tread - twrite →
      load_from_cache true (save_to_cache true store K twrite A) K tread ttl = none) := by
  have hK : save_to_cache true store K twrite A K = some ⟨twrite, A⟩ := by
    simp [save_to_cache]
  constructor
  · intro h
    simp [load_from_cache, hK, h]
  · intro h
    simp [load_from_cache, hK, not_lt.mpr h]

def c7Art : Article :=
  { title := "A fresh AI story for the cache", link := "https://example.org/a",
    published := some 0, summary := "s", source := "src", source_type := "rss" }

/-- C7 witness: writing at time 0 with a 30-hour TTL, a read at 10 hours
returns the articles and a read at 40 hours misses. -/
theorem C7_witness :
    load_from_cache true (save_to_cache true (fun _ => none) "k" 0 [c7Art]) "k" 10 30
      = some [c7Art]
    ∧ load_from_cache true (save_to_cache true (fun _ => none) "k" 0 [c7Art]) "k" 40 30
      = none :=
  ⟨(C7_cache_roundtrip_and_expiry (fun _ => none) "k" [c7Art] 0 10 30).1 (by norm_num),
   (C7_cache_roundtrip_and_expiry (fun _ => none) "k" [c7Art] 0 40 30).2 (by norm_num)⟩

/-- C10: a cached empty list does not short-circuit `fetch_from_source`
(Python `if cached:` is false for `[]`): the fresh fetch result is
returned; a cached non-empty list is returned as-is with no fetch and no
cache write; and an empty fresh result is never written back to the
cache. -/
theorem C10_empty_cache_entry_is_miss
    (store : CacheStore) (now ttl : ℚ) (source_name : String)
    (source_config : SourceConfig) (impl : List Article) :
    (load_from_cache true store (get_cache_key (source_name ++ "_" ++ source_config.url))
        now ttl = some [] →
      (fetch_from_source true store now ttl source_name source_config impl).1 = impl
      ∧ (impl = [] → ∀ k,
          (fetch_from_source true store now ttl source_name source_config impl).2 k = store k))
    ∧ (∀ l, load_from_cache true store (get_cache_key (source_name ++ "_" ++ source_config.url))
        now ttl = some l → l ≠ [] →
      (fetch_from_source true store now ttl source_name source_config impl).1 = l
      ∧ ∀ k, (fetch_from_source true store now ttl source_name source_config impl).2 k = store k)
    ∧ (load_from_cache true store (get_cache_key (source_name ++ "_" ++ source_config.url))
        now ttl = none → impl = [] → ∀ k,
      (fetch_from_source true store now ttl source_name source_config impl).2 k = store k) := by
  refine ⟨?_, ?_, ?_⟩
  · intro h
    simp only [fetch_from_source]
    rw [h]
    simp
    intro hi k
    simp [hi]
  · intro l h hl
    simp only [fetch_from_source]
    rw [h]
    simp [hl]
  · intro h himpl
    simp only [fetch_from_source]
    rw [h]
    simp [himpl]

def c10Key : String := get_cache_key ("hacker_news" ++ "_" ++ "https://hn.algolia.com/api/v1/search")

def c10Store : CacheStore := fun k => if k = c10Key then some ⟨0, []⟩ else none

def c10Cfg : SourceConfig :=
  ⟨"https://hn.algolia.com/api/v1/search", "hn_api", 7, "community"⟩

def c10Art : Article :=
  { title := "Show HN: a tiny AI agent", link := "https://example.org/hn",
    published := some 0, summary := "", source := "Hacker News", source_type := "hn_api" }

/-- C10 witness: a within-TTL cached empty list leads to a fresh fetch
being returned, and an empty fresh result leaves the store untouched. -/
theorem C10_witness :
    (fetch_from_source true c10Store 1 30 "hacker_news" c10Cfg [c10Art]).1 = [c10Art]
    ∧ (fetch_from_source true c10Store 1 30 "hacker_news" c10Cfg []).2 "other" =
        c10Store "other" :=
  ⟨((C10_empty_cache_entry_is_miss c10Store 1 30 "hacker_news" c10Cfg [c10Art]).1
      (by decide)).1,
   ((C10_empty_cache_entry_is_miss c10Store 1 30 "hacker_news" c10Cfg []).1
      (by decide)).2 rfl "other"⟩

/-! ## Sorting lemmas for C3 -/

theorem filter_score_orderedInsert (now v : ℚ) (a : Article) :
    ∀ l : List Article,
      (List.orderedInsert (scoreGE now) a l).filter
          (fun x => decide (calculate_score now x = v))
        = if calculate_score now a = v
          then a :: l.filter (fun x => decide (calculate_score now x = v))
          else l.filter (fun x => decide (calculate_score now x = v)) := by
  intro l
  induction l with
  | nil =>
    by_cases h : calculate_score now a = v <;> simp [List.orderedInsert, h]
  | cons b t ih =>
    by_cases hr : scoreGE now a b
    · simp only [List.orderedInsert, if_pos hr]
      by_cases h : calculate_score now a = v <;>
        by_cases hb : calculate_score now b = v <;>
          simp [List.filter_cons, h, hb]
    · simp only [List.orderedInsert, if_neg hr]
      by_cases h : calculate_score now a = v
      · have hb : ¬ (calculate_score now b = v) := by
          intro hbv
          exact hr (le_of_eq (hbv.trans h.symm))
        simp [List.filter_cons, hb, h, ih]
      · by_cases hb : calculate_score now b = v <;>
          simp [List.filter_cons, hb, h, ih]

theorem filter_score_insertionSort (now v : ℚ) :
    ∀ l : List Article,
      (List.insertionSort (scoreGE now) l).filter
          (fun x => decide (calculate_score now x = v))
        = l.filter (fun x => decide (calculate_score now x = v)) := by
  intro l
  induction l with
  | nil => rfl
  | cons a t ih =>
    simp only [List.insertionSort]
    rw [filter_score_orderedInsert]
    by_cases h : calculate_score now a = v <;> simp [List.filter_cons, h, ih]

theorem sort_articles_sorted (now : ℚ) (l : List Article) :
    List.Sorted (scoreGE now) (sort_articles_by_relevance now l) := by
  letI : IsTotal Article (scoreGE now) :=
    ⟨fun a b => le_total (calculate_score now b) (calculate_score now a)⟩
  letI : IsTrans Article (scoreGE now) :=
    ⟨fun _ _ _ hab hbc => le_trans hbc hab⟩
  exact List.sorted_insertionSort (scoreGE now) l

/-- C3: the returned list is the `max_articles`-prefix of the stable
descending sort of the deduplicated, filtered pool: (1) the output equals
that prefix, (2) it is sorted by non-increasing relevance score, (3) its
length is `min max_articles pool.length` (so a pool of 20 with
`max_articles = 5` yields exactly 5), (4) the sort is stable: for every
score value, the articles carrying that score appear in exactly their
original encounter order, and (5) the sort is a permutation of the pool. -/
theorem C3_top_ranked_truncation (now : ℚ) (rawExcl : List String)
    (sources : List (String × SourceConfig))
    (fetchResult : String → SourceConfig → List Article)
    (realtimeEnabled : Bool) (realtime : List Article) (max_articles : ℕ) :
    (fetch_recent_articles now rawExcl sources fetchResult realtimeEnabled
        realtime max_articles
      = (sort_articles_by_relevance now
          (filter_articles rawExcl (deduplicate_articles
            (merged_articles sources fetchResult realtimeEnabled realtime)))).take
          max_articles)
    ∧ List.Sorted (scoreGE now)
        (fetch_recent_articles now rawExcl sources fetchResult realtimeEnabled
          realtime max_articles)
    ∧ (fetch_recent_articles now rawExcl sources fetchResult realtimeEnabled
        realtime max_articles).length
      = min max_articles
          (filter_articles rawExcl (deduplicate_articles
            (merged_articles sources fetchResult realtimeEnabled realtime))).length
    ∧ (∀ v : ℚ,
        (sort_articles_by_relevance now
            (filter_articles rawExcl (deduplicate_articles
              (merged_articles sources fetchResult realtimeEnabled realtime)))).filter
            (fun x => decide (calculate_score now x = v))
          = (filter_articles rawExcl (deduplicate_articles
              (merged_articles sources fetchResult realtimeEnabled realtime))).filter
              (fun x => decide (calculate_score now x = v)))
    ∧ List.Perm
        (sort_articles_by_relevance now
          (filter_articles rawExcl (deduplicate_articles
            (merged_articles sources fetchResult realtimeEnabled realtime))))
        (filter_articles rawExcl (deduplicate_articles
          (merged_articles sources fetchResult realtimeEnabled realtime))) := by
  refine ⟨rfl, ?_, ?_, ?_, ?_⟩
  · exact List.Pairwise.sublist (List.take_sublist _ _) (sort_articles_sorted now _)
  · unfold fetch_recent_articles
    rw [List.length_take]
    simp [sort_articles_by_relevance, List.length_insertionSort]
  · intro v
    exact filter_score_insertionSort now v _
  · exact List.perm_insertionSort _ _

/-! ## C4: the score decomposition -/

/-- Spec-side recency term: `max(0, 10 − hours_since_published / 2.4)`,
with the source's default of 5 for an unparseable timestamp. -/
def spec_recency_term (now : ℚ) (a : Article) : ℚ :=
  match a.published with
  | some t => max 0 (10 - (now - t) / (12/5))
  | none => 5

/-- Spec-side source weight: the attached static weight, else 5. -/
def spec_source_weight (a : Article) : ℚ :=
  a.source_weight.getD 5

/-- Spec-side engagement term: `min(5, metric/100)` when the effective
engagement metric (`points`, else `score`) is positive, else 0. -/
def spec_engagement_term (a : Article) : ℚ :=
  let metric : ℤ := if a.points ≠ 0 then a.points else a.score
  if 0 < metric then min 5 ((metric : ℚ) / 100) else 0

/-- Spec-side category bonus as the code actually grants it: +2 exactly
when the article's `source_type` is `arxiv_api` or `academic` (the
articles built by the strategies never carry `source_type = "academic"`,
and no strategy consults the source's `category` field). -/
def spec_category_bonus (a : Article) : ℚ :=
  if a.source_type = "arxiv_api" ∨ a.source_type = "academic" then 2 else 0

/-- The `mit_news` entry of `sources_config.ACADEMIC_SOURCES`: an RSS
source whose `category` is `"academic"`. -/
def mit_news : SourceConfig :=
  ⟨"https://news.mit.edu/topic/artificial-intelligence2-rss", "rss", 9, "academic"⟩

def c4Entry : RssEntry :=
  ⟨"A new academic AI result from MIT", "https://news.mit.edu/2025/ai-result",
   some 0, ""⟩

/-- C4 counterexample: an article fetched over RSS from `mit_news`, whose
source category IS `"academic"`, scores `10 + 9 + 0 + 0 = 19` — it gets no
category bonus, refuting "category_bonus = 2 exactly when the originating
source's category is academic" (which would give `10 + 9 + 0 + 2 = 21`). -/
theorem C4_counterexample :
    mit_news.category = "academic"
    ∧ (parse_rss_feed 0 24 5 "MIT News" [c4Entry]).map
        (fun a => calculate_score 0 { a with source_weight := some mit_news.weight })
      = [19]
    ∧ (19 : ℚ) ≠ 10 + 9 + 0 + 2 := by
  refine ⟨rfl, by decide, by norm_num⟩

/-- C4 (amended): the score decomposes as
recency + source_weight + engagement + bonus, but the bonus is keyed on
the article's `source_type` being `arxiv_api` or `academic` — not on the
originating source's `category` field, which the scorer never sees. -/
theorem C4_score_decomposition (now : ℚ) (a : Article) :
    calculate_score now a
      = spec_recency_term now a + spec_source_weight a
        + spec_engagement_term a + spec_category_bonus a
    ∧ (spec_category_bonus a = 2
        ↔ (a.source_type = "arxiv_api" ∨ a.source_type = "academic")) := by
  constructor
  · rfl
  · unfold spec_category_bonus
    by_cases h : a.source_type = "arxiv_api" ∨ a.source_type = "academic" <;>
      simp [h]

/-! ## C5: the lookback window -/

/-- The `arxiv` entry of `sources_config.ACADEMIC_SOURCES`. -/
def arxiv_source : SourceConfig :=
  ⟨"http://export.arxiv.org/api/query?search_query=cat:cs.AI+OR+cat:cs.LG+OR+cat:cs.CL+OR+cat:cs.CV&start=0&max_results=50&sortBy=submittedDate&sortOrder=descending",
   "arxiv_api", 10, "academic"⟩

/-- An arXiv Atom entry published 100 hours before the call. -/
def c5Entry : ArxivEntry :=
  ⟨some "An arXiv paper from four days ago", some "http://arxiv.org/abs/2501.01234",
   some 900, some "abs"⟩

/-- C5 counterexample: with a 24-hour lookback window, an arXiv entry
published 100 hours ago flows through `fetch_arxiv_api` (which has no
window check) and is returned by `fetch_recent_articles`: its timestamp is
NOT within the lookback window at the time of the call. -/
theorem C5_counterexample :
    (fetch_recent_articles 1000 [] [("arxiv", arxiv_source)]
        (fun _ _ => fetch_arxiv_api 1000 [c5Entry]) false [] 100).map
      (fun a => a.published) = [some 900]
    ∧ ¬ ((1000 : ℚ) - 900 ≤ 24) := by
  refine ⟨by decide, by norm_num⟩

/-- C5 (amended): the RSS strategy really does discard items older than
the lookback window — every article it returns carries a timestamp `t`
with `now - t ≤ lookback_hours` — but the arXiv API strategy (and the
real-time search results) perform no such check, so articles returned by
`fetch_recent_articles` can be arbitrarily older than the window. -/
theorem C5_rss_within_lookback (now lookback : ℚ) (maxPerSource : ℕ)
    (source_name : String) (entries : List RssEntry) :
    ∀ a ∈ parse_rss_feed now lookback maxPerSource source_name entries,
      ∃ t, a.published = some t ∧ now - t ≤ lookback := by
  intro a ha
  unfold parse_rss_feed at ha
  rw [List.mem_filterMap] at ha
  obtain ⟨e, _, hsome⟩ := ha
  by_cases hwin : lookback < now - e.published.getD now
  · simp [hwin] at hsome
  · rw [if_neg hwin] at hsome
    push_neg at hwin
    dsimp only at hsome
    split at hsome
    · have h := Option.some.inj hsome
      exact ⟨e.published.getD now, by rw [← h], hwin⟩
    · exact absurd hsome (by simp)

def c5wEntry : RssEntry :=
  ⟨"Fresh article about transformers", "https://x.com/a", some 90, ""⟩

def c5wArt : Article :=
  { title := "Fresh article about transformers", link := "https://x.com/a",
    published := some 90, summary := "", source := "MIT News",
    source_type := "rss" }

/-- C5 witness: with `now = 100` and a 24-hour window, an entry published
at hour 90 is kept by `parse_rss_feed` and its timestamp is within the
window. -/
theorem C5_witness :
    c5wArt ∈ parse_rss_feed 100 24 5 "MIT News" [c5wEntry]
    ∧ ∃ t, c5wArt.published = some t ∧ (100:ℚ) - t ≤ 24 :=
  ⟨by decide,
   C5_rss_within_lookback 100 24 5 "MIT News" [c5wEntry] c5wArt (by decide)⟩

/-! ## C6: there is no per-domain cap -/

/-- A generic RSS source on the domain `example.com`. -/
def example_source : SourceConfig :=
  ⟨"https://example.com/feed", "rss", 5, "news"⟩

def c6a1 : Article :=
  { title := "Example domain article one on AI", link := "https://example.com/a1",
    published := some 0, summary := "", source := "Example", source_type := "rss" }

def c6a2 : Article :=
  { title := "Example domain article two on AI", link := "https://example.com/a2",
    published := some 0, summary := "", source := "Example", source_type := "rss" }

def c6a3 : Article :=
  { title := "Example domain article three on AI", link := "https://example.com/a3",
    published := some 0, summary := "", source := "Example", source_type := "rss" }

def c6a4 : Article :=
  { title := "Example domain article four on AI", link := "https://example.com/a4",
    published := some 0, summary := "", source := "Example", source_type := "rss" }

/-- C6: `filter_articles` implements no per-domain cap, and
`fetch_recent_articles` enforces none either: four distinct articles whose
links are all on the domain `example.com` all appear in the final result,
exceeding the claimed cap of 3. -/
theorem C6_no_per_domain_cap :
    ((fetch_recent_articles 0 [] [("example", example_source)]
        (fun _ _ => [c6a1, c6a2, c6a3, c6a4]) false [] 100).filter
      (fun a => netloc a.link == "example.com")).length = 4
    ∧ ¬ ((4:ℕ) ≤ 3) := by
  refine ⟨by decide, by norm_num⟩

/-! ## C8: validate_rss_feed quality bounds -/

theorem freshnessOf_nonneg (now : ℚ) (pub? : Option ℚ) : 0 ≤ freshnessOf now pub? := by
  cases pub? with
  | none => norm_num [freshnessOf]
  | some pub => exact le_max_left 0 _

theorem freshnessOf_le_one (now pub : ℚ) (h : pub ≤ now) :
    freshnessOf now (some pub) ≤ 1 := by
  unfold freshnessOf
  have h0 : (0 : ℚ) ≤ ((⌊(now - pub) / 24⌋ : ℤ) : ℚ) := by
    have hd : (0 : ℚ) ≤ (now - pub) / 24 :=
      div_nonneg (sub_nonneg.mpr h) (by norm_num)
    exact_mod_cast Int.floor_nonneg.mpr hd
  refine max_le (by norm_num) ?_
  have : (0 : ℚ) ≤ ((⌊(now - pub) / 24⌋ : ℤ) : ℚ) / 30 := div_nonneg h0 (by norm_num)
  linarith

theorem aiRelevanceOf_nonneg (ft fd : String) (entries : List RssEntry) :
    0 ≤ aiRelevanceOf ft fd entries :=
  le_min (by norm_num) (by positivity)

theorem aiRelevanceOf_le_one (ft fd : String) (entries : List RssEntry) :
    aiRelevanceOf ft fd entries ≤ 1 :=
  min_le_left _ _

/-- C8 counterexample: a feed whose newest entry is 60 days in the FUTURE
(`published = 1440` hours, `now = 0`) is accepted by validation with
`freshness_score = 3` and `quality_score = 9/5 > 1`, refuting
`0 ≤ quality_score ≤ 1` for every accepted feed. -/
theorem C8_counterexample :
    validate_rss_feed 0 (6/10) 200 "" ""
        [{ title := "t", link := "l", published := some 1440, summary := "" }]
      = some ⟨9/5, 3, 0⟩
    ∧ ¬ ((9/5 : ℚ) ≤ 1) := by
  refine ⟨by decide, by norm_num⟩

/-- C8 (amended): for every feed accepted by validation,
`quality_score = 0.6·freshness_score + 0.4·ai_relevance`,
`0 ≤ quality_score`, the relevance is capped into `[0, 1]`, and the
quality score is at least the configured minimum threshold; the freshness
formula `max(0, 1 − age_days_of_newest_item/30)` holds whenever the newest
entry has a timestamp, and when that timestamp is not in the future it
forces `freshness_score ≤ 1` and `quality_score ≤ 1` (a future-dated
newest entry can push the quality above 1 — see the counterexample);
finally, a feed whose newest entry is 45 days old (1080 hours) has
freshness 0 and is rejected under the default threshold 0.6. -/
theorem C8_quality_score_bounds :
    (∀ (now min_score : ℚ) (status : ℕ) (ft fd : String)
        (entries : List RssEntry) (v : FeedValidation),
      validate_rss_feed now min_score status ft fd entries = some v →
        v.quality_score = (6/10) * v.freshness_score + (4/10) * v.ai_relevance
        ∧ 0 ≤ v.quality_score
        ∧ 0 ≤ v.ai_relevance ∧ v.ai_relevance ≤ 1
        ∧ 0 ≤ v.freshness_score
        ∧ min_score ≤ v.quality_score
        ∧ (∀ e rest pub, entries = e :: rest → e.published = some pub →
            v.freshness_score = max 0 (1 - ((⌊(now - pub) / 24⌋ : ℤ) : ℚ) / 30)
            ∧ (pub ≤ now → v.freshness_score ≤ 1 ∧ v.quality_score ≤ 1)))
    ∧ (∀ (now : ℚ) (ft fd : String) (e : RssEntry) (rest : List RssEntry),
        e.published = some (now - 1080) →
        validate_rss_feed now (6/10) 200 ft fd (e :: rest) = none) := by
  constructor
  · intro now min_score status ft fd entries v h
    by_cases hst : status ≠ 200
    · simp [validate_rss_feed, hst] at h
    · cases entries with
      | nil => simp [validate_rss_feed, hst] at h
      | cons latest rest =>
        simp only [validate_rss_feed, if_neg hst] at h
        split at h
        · exact absurd h (by simp)
        · rename_i hq
          have hv := (Option.some.inj h).symm
          subst hv
          have hF0 := freshnessOf_nonneg now latest.published
          have hR0 := aiRelevanceOf_nonneg ft fd (latest :: rest)
          have hR1 := aiRelevanceOf_le_one ft fd (latest :: rest)
          refine ⟨by dsimp only; ring, ?_, hR0, hR1, hF0, not_lt.mp hq, ?_⟩
          · dsimp only
            have h1 := mul_nonneg hF0 (show (0:ℚ) ≤ 6/10 by norm_num)
            have h2 := mul_nonneg hR0 (show (0:ℚ) ≤ 4/10 by norm_num)
            linarith
          · intro e rest2 pub hent hpub
            have hlat : latest = e := by
              injection hent
            subst hlat
            constructor
            · dsimp only
              rw [hpub]
              rfl
            · intro hle
              have hF1 : freshnessOf now latest.published ≤ 1 := by
                rw [hpub]; exact freshnessOf_le_one now pub hle
              refine ⟨hF1, ?_⟩
              dsimp only
              have hFm := mul_le_mul_of_nonneg_right hF1 (show (0:ℚ) ≤ 6/10 by norm_num)
              have hRm := mul_le_mul_of_nonneg_right hR1 (show (0:ℚ) ≤ 4/10 by norm_num)
              linarith
  · intro now ft fd e rest hpub
    simp only [validate_rss_feed]
    rw [if_neg (by norm_num)]
    have hfr : freshnessOf now e.published = 0 := by
      unfold freshnessOf
      rw [hpub]
      show max 0 (1 - ((⌊(now - (now - 1080)) / 24⌋ : ℤ) : ℚ) / 30) = 0
      have h24 : now - (now - 1080) = (1080 : ℚ) := by ring
      rw [h24]
      have hdiv : ((1080 : ℚ) / 24) = ((45 : ℤ) : ℚ) := by norm_num
      rw [hdiv, Int.floor_intCast]
      rw [max_eq_left (by norm_num)]
    rw [hfr]
    rw [if_pos]
    have hmle := aiRelevanceOf_le_one ft fd (e :: rest)
    have := mul_le_mul_of_nonneg_right hmle (show (0:ℚ) ≤ 4/10 by norm_num)
    linarith

def c8wEntry : RssEntry :=
  ⟨"deep learning paper", "l", some 0, ""⟩

def c8wVal : FeedValidation := ⟨19/25, 1, 2/5⟩

/-- C8 witness: a fresh, on-topic feed is accepted with quality at least
the threshold, and the 45-day-old feed of the scenario is rejected. -/
theorem C8_witness :
    ((6/10 : ℚ) ≤ c8wVal.quality_score)
    ∧ validate_rss_feed 0 (6/10) 200 "" ""
        [{ title := "t", link := "l", published := some (0 - 1080), summary := "" }]
      = none :=
  ⟨(C8_quality_score_bounds.1 0 (6/10) 200 "AI news" "machine learning research"
      [c8wEntry] c8wVal (by decide)).2.2.2.2.2.1,
   C8_quality_score_bounds.2 0 "" ""
     { title := "t", link := "l", published := some (0 - 1080), summary := "" } [] rfl⟩

/-! ## C9: rate-limit retry backoff -/

theorem ddgLoop_rateLimited_closed (base : ℚ) :
    ∀ (remaining k : ℕ),
      ddgLoop (fun _ => AttemptOutcome.rateLimited) base (k + 1) remaining
        = ([], (List.range remaining).map (fun i => round2 (base ^ (k + i)))) := by
  intro remaining
  induction remaining with
  | zero => intro k; rfl
  | succ r ih =>
    intro k
    rw [show ddgLoop (fun _ => AttemptOutcome.rateLimited) base (k + 1) (r + 1)
        = ((ddgLoop (fun _ => AttemptOutcome.rateLimited) base (k + 2) r).1,
           round2 (base ^ k) ::
             (ddgLoop (fun _ => AttemptOutcome.rateLimited) base (k + 2) r).2)
      from rfl]
    rw [ih (k + 1)]
    dsimp only
    rw [List.range_succ_eq_map, List.map_cons, List.map_map]
    refine congrArg _ ?_
    refine congrArg₂ _ ?_ ?_
    · show round2 (base ^ k) = round2 (base ^ (k + 0))
      exact congrArg (fun n => round2 (base ^ n)) (by omega)
    · refine List.map_congr_left (fun i _ => ?_)
      show round2 (base ^ (k + 1 + i)) = round2 (base ^ (k + (i + 1)))
      exact congrArg (fun n => round2 (base ^ n)) (by omega)

theorem ddgLoop_delays_le (outcomes : ℕ → AttemptOutcome) (base : ℚ) :
    ∀ (remaining attempt : ℕ),
      (ddgLoop outcomes base attempt remaining).2.length ≤ remaining := by
  intro remaining
  induction remaining with
  | zero =>
    intro attempt
    cases hoc : outcomes attempt <;> simp [ddgLoop, hoc]
  | succ r ih =>
    intro attempt
    cases hoc : outcomes attempt <;> simp [ddgLoop, hoc]
    exact ih (attempt + 1)

/-- Python `round(q, 2)` moves a value by at most `1/200`, so a gap of
`1/50` between arguments forces a strict gap between rounded values. -/
theorem round2_strict_mono {x y : ℚ} (h : x + 1/50 ≤ y) : round2 x < round2 y := by
  unfold round2
  have hx := abs_le.mp (abs_sub_round (x * 100))
  have hy := abs_le.mp (abs_sub_round (y * 100))
  have hlt : ((round (x * 100) : ℤ) : ℚ) < ((round (y * 100) : ℤ) : ℚ) := by
    linarith
  exact (div_lt_div_iff_of_pos_right (by norm_num : (0:ℚ) < 100)).mpr hlt

/-- C9: with all attempts rate-limited, the loop of `search_duckduckgo`
sleeps exactly `retries` times, delay number `k` being
`round(base^k, 2)` seconds; for any backoff base at least `1.02` (the
configured default is 1.5) the successive delays strictly increase; after
the retries are exhausted the call returns the empty list (it never
raises); and for EVERY outcome sequence the number of sleeps is bounded by
the configured retry count. -/
theorem C9_bounded_exponential_backoff (retries : ℕ) (base : ℚ)
    (hbase : 1 + 1/50 ≤ base) :
    (search_duckduckgo (fun _ => AttemptOutcome.rateLimited) retries base).2
      = (List.range retries).map (fun k => round2 (base ^ k))
    ∧ (search_duckduckgo (fun _ => AttemptOutcome.rateLimited) retries base).2.length
      = retries
    ∧ List.Chain' (· < ·)
        ((search_duckduckgo (fun _ => AttemptOutcome.rateLimited) retries base).2)
    ∧ (search_duckduckgo (fun _ => AttemptOutcome.rateLimited) retries base).1 = []
    ∧ (∀ outcomes : ℕ → AttemptOutcome,
        (search_duckduckgo outcomes retries base).2.length ≤ retries) := by
  have hclosed :
      (search_duckduckgo (fun _ => AttemptOutcome.rateLimited) retries base)
        = ([], (List.range retries).map (fun k => round2 (base ^ k))) := by
    unfold search_duckduckgo
    have h := ddgLoop_rateLimited_closed base retries 0
    simpa using h
  have hb1 : (1:ℚ) ≤ base := by linarith
  have hstep : ∀ k : ℕ, round2 (base ^ k) < round2 (base ^ (k + 1)) := by
    intro k
    apply round2_strict_mono
    have hp : (1:ℚ) ≤ base ^ k := one_le_pow₀ hb1
    have : base ^ (k + 1) - base ^ k = base ^ k * (base - 1) := by ring
    nlinarith
  refine ⟨by rw [hclosed], by rw [hclosed]; simp, ?_, by rw [hclosed], ?_⟩
  · rw [hclosed]
    rw [List.chain'_map]
    cases retries with
    | zero => simp
    | succ r =>
      rw [List.chain'_range_succ]
      intro m _
      exact hstep m
  · intro outcomes
    exact ddgLoop_delays_le outcomes base retries 1

/-- C9 witness: at the source defaults `retries = 3`, `backoff_base = 1.5`
the three sleeps are exactly 1, 1.5 and 2.25 seconds, strictly increasing,
and the exhausted call returns the empty list. -/
theorem C9_witness :
    (search_duckduckgo (fun _ => AttemptOutcome.rateLimited) 3 (3/2)).2
      = [1, 3/2, 9/4]
    ∧ List.Chain' (· < ·)
        ((search_duckduckgo (fun _ => AttemptOutcome.rateLimited) 3 (3/2)).2)
    ∧ (search_duckduckgo (fun _ => AttemptOutcome.rateLimited) 3 (3/2)).1 = [] := by
  have h := C9_bounded_exponential_backoff 3 (3/2) (by norm_num)
  exact ⟨by decide, h.2.2.1, h.2.2.2.1⟩

end NewsAgent
